import Mathlib

/-!
Verification of the risc0-verifier core against its specification.

This file gives a shallow embedding, in Lean 4, of the data model and the
operations of the `risc0-verifier` crate (claims, receipts, the composite
receipt integrity pipeline, the seal-claim encoder/decoder, the assumption
resolution operations, the v1/v2 segment `check_code` callbacks, the v2
exit-code translation, and the injected Poseidon2 sponge), together with
theorems settling the frozen specification claims.

Conventions of the embedding:
* a 256-bit digest is a list of eight 32-bit words, modelled as `List Nat`;
* the SHA-256 primitive is kept abstract as a structure of hash functions
  (mirroring the `S: Sha256` type parameter of the Rust `Digestible` trait);
* fallible Rust functions become `Except`/`Option` values; a Rust `panic!`
  becomes the `panicked` constructor of `PanicOr`;
* the external STARK engine and the version-specific verifier context are
  kept abstract as records of functions (the Rust code dispatches to them
  through the `VerifierContext` trait); theorems quantify over them;
* the integrity pipeline additionally returns the list of STARK
  verification dispatches it performed, so that "no STARK verification was
  invoked" is expressible as an empty trace.
-/

namespace R0V

/-- A 256-bit digest viewed as eight 32-bit little-endian words
(`risc0_zkp::core::digest::Digest`). -/
abbrev Digest := List Nat

/-- The all-zero digest `Digest::ZERO`, used as a sentinel. -/
def Digest.ZERO : Digest := List.replicate 8 0

/-- Wellformedness of a digest value: eight words, each below `2^32`. -/
def Digest.wf (d : Digest) : Prop := d.length = 8 ∧ ∀ w ∈ d, w < 4294967296

/-- Abstract SHA-256 interface, mirroring the `S: Sha256` type parameter of
the Rust `Digestible` trait: `hash_bytes` over byte strings and
`hash_raw_words` over word lists. -/
structure Sha where
  hashBytes : List Nat → Digest
  hashRawWords : List Nat → Digest

/-- Wellformedness of a hash implementation: it emits wellformed digests. -/
def Sha.wf (S : Sha) : Prop :=
  (∀ l, (S.hashBytes l).wf) ∧ (∀ l, (S.hashRawWords l).wf)

/-- Byte view of an ASCII tag string. -/
def strBytes (s : String) : List Nat := s.toList.map Char.toNat

/-- Modelled from the spec: `risc0_binfmt::tagged_struct` (external crate,
interface only). Hash of the tag digest, the child digests, the `u32` data
words and the child count, in that order. -/
def taggedStruct (S : Sha) (tag : String) (down : List Digest) (data : List Nat) : Digest :=
  S.hashRawWords (S.hashBytes (strBytes tag) ++ down.flatten ++ data ++ [down.length])

/-- Modelled from the spec: `risc0_binfmt::tagged_list_cons` (external
crate, interface only). -/
def taggedListCons (S : Sha) (tag : String) (head tail : Digest) : Digest :=
  taggedStruct S tag [head, tail] []

/-- Modelled from the spec: `risc0_binfmt::tagged_list` (external crate,
interface only): right fold of `tagged_list_cons` starting from the zero
digest, so the empty list hashes to `Digest::ZERO`. -/
def taggedList (S : Sha) (tag : String) (l : List Digest) : Digest :=
  l.foldr (fun elem acc => taggedListCons S tag elem acc) Digest.ZERO

/-- `risc0_binfmt::ExitCode` (external crate; tagged variants as in the
spec data model). -/
inductive ExitCode where
  | Halted (user_exit : Nat)
  | Paused (user_exit : Nat)
  | SystemSplit
  | SessionLimit
deriving DecidableEq, Repr

/-- Modelled from the spec: `ExitCode::into_pair` (external crate
`risc0_binfmt`). The `(sys, user)` pair mapping of the risc0 wire
contract: `Halted(u) ↦ (0, u)`, `Paused(u) ↦ (1, u)`,
`SystemSplit ↦ (2, 0)`, `SessionLimit ↦ (2, 2)`. -/
def ExitCode.into_pair : ExitCode → Nat × Nat
  | .Halted u => (0, u)
  | .Paused u => (1, u)
  | .SystemSplit => (2, 0)
  | .SessionLimit => (2, 2)

/-- Modelled from the spec: `ExitCode::from_pair` (external crate
`risc0_binfmt`). Sys code 0 is `Halted`, 1 is `Paused`, 2 is
`SystemSplit`; anything else is an invalid exit code. -/
def ExitCode.from_pair (sys user : Nat) : Option ExitCode :=
  if sys = 0 then some (.Halted user)
  else if sys = 1 then some (.Paused user)
  else if sys = 2 then some .SystemSplit
  else none

/-- `risc0_binfmt::SystemState`: the RISC-V pc plus a commitment to
memory. -/
structure SystemState where
  pc : Nat
  merkle_root : Digest
deriving DecidableEq, Repr

/-- Wellformedness of a system state value. -/
def SystemState.wf (s : SystemState) : Prop := s.pc < 4294967296 ∧ s.merkle_root.wf

instance (d : Digest) : Decidable d.wf := by unfold Digest.wf; infer_instance

instance (s : SystemState) : Decidable s.wf := by unfold SystemState.wf; infer_instance

/-- Modelled from the spec: digest of a `SystemState` (external crate
`risc0_binfmt`), a tagged struct over the merkle root and the pc. -/
def SystemState.digest (S : Sha) (s : SystemState) : Digest :=
  taggedStruct S "risc0.SystemState" [s.merkle_root] [s.pc]

/-- `MaybePruned<T>` from `receipt_claim.rs`: either an unpruned value or
the digest of the pruned value. -/
inductive MaybePruned (T : Type) where
  | Value (v : T)
  | Pruned (d : Digest)
deriving DecidableEq, Repr

/-- The `Digestible` impl for `MaybePruned<T>` from `receipt_claim.rs`:
an unpruned value hashes through the element digest function `dg`, a
pruned node is its stored digest. -/
def MaybePruned.digest {T : Type} (dg : T → Digest) : MaybePruned T → Digest
  | .Value v => dg v
  | .Pruned d => d

/-- `Unknown` from `receipt_claim.rs`: an uninhabited claim type. -/
inductive Unknown : Type
deriving DecidableEq, Repr

/-- The `Digestible` impl for `Unknown` (unreachable match). -/
def Unknown.digest : Unknown → Digest := fun u => nomatch u

/-- `Input` from `receipt_claim.rs`: currently uninhabited (its only field
has the uninhabited type `Unknown`). -/
structure Input where
  x : Unknown
deriving DecidableEq, Repr

/-- The `Digestible` impl for `Input` (unreachable match). -/
def Input.digest : Input → Digest := fun i => nomatch i.x

/-- Modelled from the spec: the `Digestible` impl for `Option<T>`
(external crate `risc0_binfmt`): `None` digests to the zero digest. -/
def optDigest {T : Type} (dg : T → Digest) : Option T → Digest
  | none => Digest.ZERO
  | some v => dg v

/-- `Assumption` from `receipt_claim.rs`. -/
structure Assumption where
  claim : Digest
  control_root : Digest
deriving DecidableEq, Repr

/-- The `Digestible` impl for `Assumption`. -/
def Assumption.digest (S : Sha) (a : Assumption) : Digest :=
  taggedStruct S "risc0.Assumption" [a.claim, a.control_root] []

/-- `Assumptions` from `receipt_claim.rs`: an ordered list of possibly
pruned assumptions. -/
abbrev Assumptions := List (MaybePruned Assumption)

/-- The `Digestible` impl for `Assumptions`: a tagged list of the element
digests. -/
def Assumptions.digest (S : Sha) (l : Assumptions) : Digest :=
  taggedList S "risc0.Assumptions" (l.map (MaybePruned.digest (Assumption.digest S)))

/-- `Output` from `receipt_claim.rs`. -/
structure Output where
  journal : MaybePruned (List Nat)
  assumptions : MaybePruned Assumptions
deriving DecidableEq, Repr

/-- Digest of a journal byte string (the `Digestible` impl for `[u8]`
hashes the bytes with SHA-256). -/
def journalDigest (S : Sha) (bytes : List Nat) : Digest := S.hashBytes bytes

/-- The `Digestible` impl for `Output`. -/
def Output.digest (S : Sha) (o : Output) : Digest :=
  taggedStruct S "risc0.Output"
    [MaybePruned.digest (journalDigest S) o.journal,
     MaybePruned.digest (Assumptions.digest S) o.assumptions] []

/-- `ReceiptClaim` from `receipt_claim.rs`. -/
structure ReceiptClaim where
  pre : MaybePruned SystemState
  post : MaybePruned SystemState
  exit_code : ExitCode
  input : MaybePruned (Option Input)
  output : MaybePruned (Option Output)
deriving DecidableEq, Repr

/-- Digest of the `input` field of a `ReceiptClaim`. -/
def ReceiptClaim.inputDigest (c : ReceiptClaim) : Digest :=
  MaybePruned.digest (optDigest Input.digest) c.input

/-- Digest of the `output` field of a `ReceiptClaim`. -/
def ReceiptClaim.outputDigest (S : Sha) (c : ReceiptClaim) : Digest :=
  MaybePruned.digest (optDigest (Output.digest S)) c.output

/-- The `Digestible` impl for `ReceiptClaim` from `receipt_claim.rs`:
`tagged_struct("risc0.ReceiptClaim", [input, pre, post, output],
[sys_exit, user_exit])`. -/
def ReceiptClaim.digest (S : Sha) (c : ReceiptClaim) : Digest :=
  taggedStruct S "risc0.ReceiptClaim"
    [c.inputDigest,
     MaybePruned.digest (SystemState.digest S) c.pre,
     MaybePruned.digest (SystemState.digest S) c.post,
     c.outputDigest S]
    [c.exit_code.into_pair.fst, c.exit_code.into_pair.snd]

/-- `ReceiptClaim::ok` from `receipt_claim.rs`: the canonical claim of an
execution that halted normally with the given image id and journal. -/
def ReceiptClaim.ok (image_id : Digest) (journal : MaybePruned (List Nat)) : ReceiptClaim :=
  { pre := .Pruned image_id
    post := .Value { pc := 0, merkle_root := Digest.ZERO }
    exit_code := .Halted 0
    input := .Value none
    output := .Value (some { journal := journal, assumptions := .Pruned Digest.ZERO }) }

/-- `MaybePruned::<Option<T>>::is_none` from `receipt_claim.rs`: `None`,
or pruned as the zero digest. -/
def MaybePruned.is_none {T : Type} : MaybePruned (Option T) → Bool
  | .Value (some _) => false
  | .Value none => true
  | .Pruned d => decide (d = Digest.ZERO)

/-- `MaybePruned::<Assumptions>::is_empty` from `receipt_claim.rs`. -/
def MaybePruned.assumptions_is_empty : MaybePruned Assumptions → Bool
  | .Value l => l.isEmpty
  | .Pruned d => decide (d = Digest.ZERO)

/-- `Assumptions::resolve` from `receipt_claim.rs`: requires the digest of
the head of the list to equal `resolved`, then drops the head; errors on
an empty list or a head-digest mismatch. -/
def Assumptions.resolve (S : Sha) (l : Assumptions) (resolved : Digest) :
    Except String Assumptions :=
  match l with
  | [] => .error "cannot resolve assumption from empty list"
  | head :: tail =>
    if MaybePruned.digest (Assumption.digest S) head = resolved then .ok tail
    else .error "resolved assumption is not equal to the head of the list"

/-- `MaybePruned::<Assumptions>::resolve` from `receipt_claim.rs`: the
`Value` arm delegates to `Assumptions::resolve` (the `tail` argument is
not consulted there); the `Pruned` arm reconstructs the cons digest from
`resolved` and `tail` and compares it with the stored digest. -/
def MaybePruned.resolve_assumptions (S : Sha) (mp : MaybePruned Assumptions)
    (resolved tail : Digest) : Except String (MaybePruned Assumptions) :=
  match mp with
  | .Value l => (Assumptions.resolve S l resolved).map .Value
  | .Pruned list_digest =>
    let reconstructed := taggedListCons S "risc0.Assumptions" resolved tail
    if reconstructed = list_digest then .ok (.Pruned tail)
    else .error "reconstructed list digest does not match"

/-- `VerificationError` from `risc0_zkp::verify` (the error taxonomy of
the spec, with the payloads the verifier constructs). -/
inductive VErr where
  | ReceiptFormatError
  | ControlVerificationError (control_id : Digest)
  | ImageVerificationError
  | MerkleQueryOutOfRange (idx : Nat) (rows : Nat)
  | InvalidProof
  | JournalDigestMismatch
  | ClaimDigestMismatch (expected : Digest) (received : Digest)
  | UnexpectedExitCode
  | InvalidHashSuite
  | VerifierParametersMissing
  | VerifierParametersMismatch (expected : Digest) (received : Digest)
  | ProofSystemInfoMismatch
  | CircuitInfoMismatch
  | UnresolvedAssumption (digest : Digest)
deriving DecidableEq, Repr

/-- `SegmentReceipt` from `segment.rs`. -/
structure SegmentReceipt where
  seal' : List Nat
  index : Nat
  hashfn : String
  verifier_parameters : Digest
  claim : ReceiptClaim
deriving DecidableEq, Repr

/-- `MerkleProof` from `receipt/merkle.rs`: leaf index and sibling
digests. -/
structure MerkleProof where
  index : Nat
  digests : List Digest
deriving DecidableEq, Repr

/-- `SuccinctReceipt<ReceiptClaim>` from `receipt/succinct.rs`. -/
structure SuccinctReceiptR where
  seal' : List Nat
  control_id : Digest
  claim : MaybePruned ReceiptClaim
  hashfn : String
  verifier_parameters : Digest
  control_inclusion_proof : MerkleProof
deriving DecidableEq, Repr

/-- `SuccinctReceipt<Unknown>` from `receipt/succinct.rs`: a succinct
receipt whose claim type is unknown, so only its digest is meaningful. -/
structure SuccinctReceiptU where
  seal' : List Nat
  control_id : Digest
  claim : MaybePruned Unknown
  hashfn : String
  verifier_parameters : Digest
  control_inclusion_proof : MerkleProof
deriving DecidableEq, Repr

mutual
/-- `CompositeReceipt` from `receipt/composite.rs`: ordered segment
receipts, assumption receipts, and the verifier parameters digest. -/
inductive CompositeReceipt where
  | mk (segments : List SegmentReceipt)
       (assumption_receipts : List InnerAssumptionReceipt)
       (verifier_parameters : Digest)

/-- `InnerAssumptionReceipt` from `receipt.rs`: a composite receipt or a
succinct receipt with an unknown claim type. -/
inductive InnerAssumptionReceipt where
  | Composite (c : CompositeReceipt)
  | Succinct (s : SuccinctReceiptU)
end

/-- The `segments` field of a `CompositeReceipt`. -/
def CompositeReceipt.segments : CompositeReceipt → List SegmentReceipt
  | .mk segs _ _ => segs

/-- The `assumption_receipts` field of a `CompositeReceipt`. -/
def CompositeReceipt.assumption_receipts : CompositeReceipt → List InnerAssumptionReceipt
  | .mk _ ars _ => ars

/-- The `verifier_parameters` field of a `CompositeReceipt`. -/
def CompositeReceipt.verifier_parameters : CompositeReceipt → Digest
  | .mk _ _ vp => vp

/-- `InnerReceipt` from `receipt.rs`. -/
inductive InnerReceipt where
  | Composite (c : CompositeReceipt)
  | Succinct (s : SuccinctReceiptR)

/-- `Proof` from `receipt.rs`: a wrapper around the inner receipt. -/
structure Proof where
  inner : InnerReceipt

/-- `InnerReceipt::composite` from `receipt.rs`: the `Composite` arm or a
receipt format error. -/
def InnerReceipt.composite : InnerReceipt → Except VErr CompositeReceipt
  | .Composite c => .ok c
  | .Succinct _ => .error .ReceiptFormatError

/-- The record of one dispatch of STARK-backed integrity verification,
used to observe which receipts reached the engine. -/
inductive StarkCall where
  | segment (r : SegmentReceipt)
  | succinct (r : SuccinctReceiptR)
  | succinct_u (r : SuccinctReceiptU)

/-- Modelled from the spec: the `VerifierContext` trait (its definition is
not under `src/`; `receipt.rs`, `composite.rs` and `succinct.rs` dispatch
through it). The version-specific operations are kept abstract: the
receipt-shape predicate `is_valid_receipt`, the full segment and succinct
integrity checks of spec sections 4.E and 4.F, and the assumption
sub-context constructor of spec section 4.G (`None` means reuse the same
context). -/
inductive Ctx where
  | mk (is_valid_receipt : Proof → Bool)
       (segment_integrity : SegmentReceipt → Except VErr Unit)
       (succinct_integrity : SuccinctReceiptR → Except VErr Unit)
       (succinct_integrity_u : SuccinctReceiptU → Except VErr Unit)
       (assumption_context : Assumption → Option Ctx)

/-- The receipt-shape predicate of a context. -/
def Ctx.is_valid_receipt : Ctx → Proof → Bool
  | .mk f _ _ _ _ => f

/-- The segment integrity check of a context. -/
def Ctx.segment_integrity : Ctx → SegmentReceipt → Except VErr Unit
  | .mk _ f _ _ _ => f

/-- The succinct integrity check of a context. -/
def Ctx.succinct_integrity : Ctx → SuccinctReceiptR → Except VErr Unit
  | .mk _ _ f _ _ => f

/-- The succinct integrity check for unknown-claim receipts. -/
def Ctx.succinct_integrity_u : Ctx → SuccinctReceiptU → Except VErr Unit
  | .mk _ _ _ f _ => f

/-- The assumption sub-context constructor of a context. -/
def Ctx.assumption_context : Ctx → Assumption → Option Ctx
  | .mk _ _ _ _ f => f

/-- `split_last` on the segment list (`slice::split_last`, but returning
the initial segments first): `none` on an empty list. -/
def splitLast {α : Type} (l : List α) : Option (List α × α) :=
  match l.getLast? with
  | none => none
  | some a => some (l.dropLast, a)

/-- Decidable form of the chained pre-state check of
`CompositeReceipt::verify_integrity_with_context`: when an expected
pre-state digest has been recorded it must equal the digest of the next
segment's `pre`. -/
def preStateOk (expected : Option Digest) (d : Digest) : Bool :=
  match expected with
  | some id => decide (id = d)
  | none => true

/-- The per-segment loop of `CompositeReceipt::verify_integrity_with_context`
over the non-final segments: verify the segment's integrity, check the
pre-state chains to the prior post-state, require exit code `SystemSplit`
and an absent output, and require the post-state to be an unpruned value
(recording its digest for the next iteration). Returns the recorded
post-state digest together with the trace of integrity dispatches. -/
def chain_loop (S : Sha) (ctx : Ctx) (expected : Option Digest) :
    List SegmentReceipt → Except VErr (Option Digest) × List StarkCall
  | [] => (.ok expected, [])
  | r :: rest =>
    match ctx.segment_integrity r with
    | .error e => (.error e, [.segment r])
    | .ok _ =>
      if preStateOk expected (MaybePruned.digest (SystemState.digest S) r.claim.pre) then
        if r.claim.exit_code = .SystemSplit then
          if r.claim.output.is_none then
            match r.claim.post with
            | .Pruned _ => (.error .ReceiptFormatError, [.segment r])
            | .Value ps =>
              let next := chain_loop S ctx (some (SystemState.digest S ps)) rest
              (next.fst, .segment r :: next.snd)
          else (.error .ReceiptFormatError, [.segment r])
        else (.error .UnexpectedExitCode, [.segment r])
      else (.error .ImageVerificationError, [.segment r])

/-- Collect the values of a possibly pruned assumption list; a pruned
entry is a `ReceiptFormatError` (the `as_value` calls inside
`CompositeReceipt::assumptions`). -/
def collectValues : List (MaybePruned Assumption) → Except VErr (List Assumption)
  | [] => .ok []
  | .Pruned _ :: _ => .error .ReceiptFormatError
  | .Value a :: rest => (collectValues rest).map (fun l => a :: l)

/-- `CompositeReceipt::assumptions` from `receipt/composite.rs`: the
assumption list of the last segment's output; pruned values encountered
on the way become `ReceiptFormatError`, an absent or empty output gives
the empty list. -/
def assumptions_of (segments : List SegmentReceipt) : Except VErr (List Assumption) :=
  match segments.getLast? with
  | none => .error .ReceiptFormatError
  | some last =>
    match last.claim.output with
    | .Pruned _ => .error .ReceiptFormatError
    | .Value none => .ok []
    | .Value (some output) =>
      if output.assumptions.assumptions_is_empty then .ok []
      else match output.assumptions with
        | .Pruned _ => .error .ReceiptFormatError
        | .Value list => collectValues list

/-- `CompositeReceipt::claim` from `receipt/composite.rs` (on the segment
list): pre and input from the first segment, post and exit code from the
last, output from the last with the assumptions stripped; requires a
nonempty segment list and an unpruned last output. -/
def claim_of (segments : List SegmentReceipt) : Except VErr ReceiptClaim :=
  match segments.head?, segments.getLast? with
  | some first, some last =>
    match last.claim.output with
    | .Pruned _ => .error .ReceiptFormatError
    | .Value o =>
      .ok { pre := first.claim.pre
            post := last.claim.post
            exit_code := last.claim.exit_code
            input := first.claim.input
            output := .Value (o.map (fun out =>
              { journal := out.journal, assumptions := .Value [] })) }
  | _, _ => .error .ReceiptFormatError

/-- `CompositeReceipt::claim`. -/
def CompositeReceipt.claim (c : CompositeReceipt) : Except VErr ReceiptClaim :=
  claim_of c.segments

/-- `InnerAssumptionReceipt::claim_digest` from `receipt.rs`: digest of
the composite claim, or the digest of the (unknown) succinct claim. -/
def InnerAssumptionReceipt.claim_digest (S : Sha) :
    InnerAssumptionReceipt → Except VErr Digest
  | .Composite c => (c.claim).map (ReceiptClaim.digest S)
  | .Succinct s => .ok (MaybePruned.digest Unknown.digest s.claim)

mutual
/-- `CompositeReceipt::verify_integrity_with_context` from
`receipt/composite.rs`: split off the final segment, verify and chain the
non-final segments, verify the final segment and its pre-state link,
collect the assumptions of the last segment, require one attached receipt
per assumption, and verify each assumption receipt (under the assumption
sub-context when one is constructed) against the assumption's claim
digest. The second component records every integrity dispatch, in
order. -/
def CompositeReceipt.verify_integrity (S : Sha) (ctx : Ctx)
    (c : CompositeReceipt) : Except VErr Unit × List StarkCall :=
  match c with
  | .mk segments ars _vp =>
    match splitLast segments with
    | none => (.error .ReceiptFormatError, [])
    | some (receipts, final_receipt) =>
      match chain_loop S ctx none receipts with
      | (.error e, t) => (.error e, t)
      | (.ok expected, t1) =>
        match ctx.segment_integrity final_receipt with
        | .error e => (.error e, t1 ++ [.segment final_receipt])
        | .ok _ =>
          if preStateOk expected
              (MaybePruned.digest (SystemState.digest S) final_receipt.claim.pre) then
            match assumptions_of segments with
            | .error e => (.error e, t1 ++ [.segment final_receipt])
            | .ok assumptions =>
              if assumptions.length = ars.length then
                let rest := assumption_loop S ctx assumptions ars
                (rest.fst, t1 ++ [.segment final_receipt] ++ rest.snd)
              else (.error .ReceiptFormatError, t1 ++ [.segment final_receipt])
          else (.error .ImageVerificationError, t1 ++ [.segment final_receipt])
termination_by sizeOf c

/-- The assumption-resolution loop of
`CompositeReceipt::verify_integrity_with_context`: for each
`(assumption, receipt)` pair, verify the receipt under
`assumption_context(assumption)` (falling back to the same context) and
require the receipt's claim digest to equal the assumption's claim. -/
def assumption_loop (S : Sha) (ctx : Ctx) :
    List Assumption → List InnerAssumptionReceipt → Except VErr Unit × List StarkCall
  | [], _ => (.ok (), [])
  | _ :: _, [] => (.ok (), [])
  | a :: rest_a, ar :: rest_r =>
    let actx := (ctx.assumption_context a).getD ctx
    match InnerAssumptionReceipt.verify_integrity S actx ar with
    | (.error e, t) => (.error e, t)
    | (.ok _, t) =>
      match ar.claim_digest S with
      | .error e => (.error e, t)
      | .ok d =>
        if d ≠ a.claim then (.error (.ClaimDigestMismatch a.claim d), t)
        else
          let next := assumption_loop S ctx rest_a rest_r
          (next.fst, t ++ next.snd)
termination_by _as ars => sizeOf ars

/-- `InnerAssumptionReceipt::verify_integrity_with_context` from
`receipt.rs`: dispatch on the composite or succinct arm. -/
def InnerAssumptionReceipt.verify_integrity (S : Sha) (ctx : Ctx) :
    InnerAssumptionReceipt → Except VErr Unit × List StarkCall
  | .Composite c => CompositeReceipt.verify_integrity S ctx c
  | .Succinct s => (ctx.succinct_integrity_u s, [.succinct_u s])
termination_by r => sizeOf r
end

/-- `InnerReceipt::verify_integrity_with_context` from `receipt.rs`. -/
def InnerReceipt.verify_integrity (S : Sha) (ctx : Ctx) :
    InnerReceipt → Except VErr Unit × List StarkCall
  | .Composite c => CompositeReceipt.verify_integrity S ctx c
  | .Succinct s => (ctx.succinct_integrity s, [.succinct s])

/-- `InnerReceipt::claim` from `receipt.rs`: the composite claim wrapped
as an unpruned value, or the succinct receipt's claim. -/
def InnerReceipt.claim : InnerReceipt → Except VErr (MaybePruned ReceiptClaim)
  | .Composite c => (c.claim).map .Value
  | .Succinct s => .ok s.claim

/-- `Proof::verify` from `receipt.rs`: receipt-shape check, inner
integrity verification, then comparison of the digest of
`ReceiptClaim::ok(image_id, Pruned(pubs))` with the digest of the inner
receipt's claim; a mismatch is `ClaimDigestMismatch` with the expected
and received digests. -/
def Proof.verify (S : Sha) (ctx : Ctx) (image_id pubs : Digest) (p : Proof) :
    Except VErr Unit × List StarkCall :=
  if ctx.is_valid_receipt p then
    match InnerReceipt.verify_integrity S ctx p.inner with
    | (.error e, t) => (.error e, t)
    | (.ok _, t) =>
      let expected_claim := ReceiptClaim.ok image_id (.Pruned pubs)
      match InnerReceipt.claim p.inner with
      | .error e => (.error e, t)
      | .ok mc =>
        if ReceiptClaim.digest S expected_claim ≠
            MaybePruned.digest (ReceiptClaim.digest S) mc then
          (.error (.ClaimDigestMismatch (ReceiptClaim.digest S expected_claim)
            (MaybePruned.digest (ReceiptClaim.digest S) mc)), t)
        else (.ok (), t)
  else (.error .ReceiptFormatError, [])

/-- `Verifier::verify` from `context.rs`: hash the journal bytes with
SHA-256 and call `Proof::verify`. -/
def Verifier.verify (S : Sha) (ctx : Ctx) (image_id : Digest) (p : Proof)
    (journal : List Nat) : Except VErr Unit × List StarkCall :=
  Proof.verify S ctx image_id (journalDigest S journal) p

/-- `V2::is_valid_receipt` from `context/v2.rs` (identical in
`context/v3.rs`): reject a composite receipt any of whose segments names
`"sha-256"` as its hash function. -/
def V2.is_valid_receipt (p : Proof) : Bool :=
  match p.inner.composite with
  | .ok c => if c.segments.any (fun s => s.hashfn == "sha-256") then false else true
  | .error _ => true

/-- The `check_code` closure of `SegmentReceipt::verify_integrity_with_context`
in `segment.rs` and of `V1::verify_segment` in `context/v1.rs`: success
iff the presented control id belongs to `params.control_ids`, else
`ControlVerificationError` carrying that id. -/
def check_code_v1 (control_ids : List Digest) (control_id : Digest) : Except VErr Unit :=
  if control_id ∈ control_ids then .ok ()
  else .error (.ControlVerificationError control_id)

/-- The `check_code_fn` closure of `V2::verify_segment` in
`context/v2.rs` (identical in `V3::verify_segment`, `context/v3.rs`): it
ignores both arguments and always succeeds; there is no code buffer to
verify. -/
def check_code_v2 (_po2 : Nat) (_control_id : Digest) : Except VErr Unit := .ok ()

/-- Modelled from the spec: `risc0_binfmt::write_sha_halfs` (external
crate): each 32-bit digest word is written as two 16-bit halves, low half
first. -/
def write_sha_halfs (d : Digest) : List Nat :=
  (d.map (fun x => [x % 65536, x / 65536])).flatten

/-- Modelled from the spec: the word-reassembly loop of
`risc0_binfmt::read_sha_halfs`: pop two halves per word, `EndOfStream`
(here `none`) when the stream runs out; only the low 16 bits of each
popped word are used. -/
def read_halfs_words : Nat → List Nat → Option (List Nat × List Nat)
  | 0, flat => some ([], flat)
  | n + 1, lo :: hi :: rest =>
    (read_halfs_words n rest).map (fun p => ((lo % 65536 + hi % 65536 * 65536) :: p.fst, p.snd))
  | _ + 1, [] => none
  | _ + 1, [_] => none

/-- Modelled from the spec: `risc0_binfmt::read_sha_halfs` (external
crate): read a digest as 16 half-words. -/
def read_sha_halfs (flat : List Nat) : Option (Digest × List Nat) :=
  read_halfs_words 8 flat

/-- Modelled from the spec: `risc0_binfmt::write_u32_bytes` (external
crate): one word written as four little-endian bytes. -/
def write_u32_bytes (x : Nat) : List Nat :=
  [x % 256, x / 256 % 256, x / 65536 % 256, x / 16777216 % 256]

/-- Modelled from the spec: `risc0_binfmt::read_u32_bytes` (external
crate): reassemble a word from four little-endian bytes; only the low
byte of each popped word is used. -/
def read_u32_bytes : List Nat → Option (Nat × List Nat)
  | b0 :: b1 :: b2 :: b3 :: rest =>
    some (b0 % 256 + b1 % 256 * 256 + b2 % 256 * 65536 + b3 % 256 * 16777216, rest)
  | _ => none

/-- Modelled from the spec: `SystemState::encode` (external crate
`risc0_binfmt`): the merkle root as 16 half-words followed by the pc. -/
def SystemState.encode (s : SystemState) : List Nat :=
  write_sha_halfs s.merkle_root ++ write_u32_bytes s.pc

/-- Modelled from the spec: `SystemState::decode` (external crate
`risc0_binfmt`), the inverse of `SystemState::encode`. -/
def SystemState.decode (flat : List Nat) : Option (SystemState × List Nat) :=
  match read_sha_halfs flat with
  | none => none
  | some (root, rest) =>
    (read_u32_bytes rest).map (fun p => ({ pc := p.fst, merkle_root := root }, p.snd))

/-- The inner decode errors of `risc0_binfmt::DecodeError`. -/
inductive SysDecodeError where
  | EndOfStream
deriving DecidableEq, Repr

/-- `DecodeError` from `receipt_claim.rs`: an invalid exit code or an
inner decoding failure. -/
inductive DecodeError where
  | InvalidExitCode
  | Decode (e : SysDecodeError)
deriving DecidableEq, Repr

/-- `PrunedValueError` from `receipt_claim.rs`, carrying the digest of
the pruned value. -/
structure PrunedValueError where
  d : Digest
deriving DecidableEq, Repr

/-- `ReceiptClaim::decode` from `receipt_claim.rs`: read the input digest
as sha halves, the pre and post system states, the exit code pair, and
the output digest as sha halves; the decoded claim has `input` and
`output` pruned. The unread remainder of the stream is returned
alongside. -/
def ReceiptClaim.decode (flat : List Nat) :
    Except DecodeError (ReceiptClaim × List Nat) :=
  match read_sha_halfs flat with
  | none => .error (.Decode .EndOfStream)
  | some (input, r1) =>
    match SystemState.decode r1 with
    | none => .error (.Decode .EndOfStream)
    | some (pre, r2) =>
      match SystemState.decode r2 with
      | none => .error (.Decode .EndOfStream)
      | some (post, r3) =>
        match r3 with
        | sys_exit :: user_exit :: r4 =>
          match ExitCode.from_pair sys_exit user_exit with
          | none => .error .InvalidExitCode
          | some exit_code =>
            match read_sha_halfs r4 with
            | none => .error (.Decode .EndOfStream)
            | some (output, r5) =>
              .ok ({ input := .Pruned input
                     pre := .Value pre
                     post := .Value post
                     exit_code := exit_code
                     output := .Pruned output }, r5)
        | _ => .error (.Decode .EndOfStream)

/-- `ReceiptClaim::encode` from `receipt_claim.rs`: the flat words are
the input digest as sha halves, the encoded pre and post states (which
must be unpruned values, else `PrunedValueError` with that digest), the
exit code pair, and the output digest as sha halves. -/
def ReceiptClaim.encode (S : Sha) (c : ReceiptClaim) :
    Except PrunedValueError (List Nat) :=
  match c.pre with
  | .Pruned d => .error ⟨d⟩
  | .Value pre =>
    match c.post with
    | .Pruned d => .error ⟨d⟩
    | .Value post =>
      .ok (write_sha_halfs c.inputDigest ++ pre.encode ++ post.encode ++
        [c.exit_code.into_pair.fst, c.exit_code.into_pair.snd] ++
        write_sha_halfs (c.outputDigest S))

/-- `HighLowU16` from the external `risc0_circuit_rv32im_v2` crate: a
packed pair of 16-bit values; `context/v2.rs` destructures the `a0`
register of a terminate state as `HighLowU16(user_exit, halt_type)`. -/
structure HighLowU16 where
  fst : Nat
  snd : Nat
deriving DecidableEq, Repr

/-- Modelled from the spec: the terminate state of the external
`Rv32imV2Claim`, of which only the `a0` register is consulted. -/
structure TerminateState where
  a0 : HighLowU16
deriving DecidableEq, Repr

/-- Modelled from the spec: the external `Rv32imV2Claim` committed by the
v2/v3 circuit: pre and post state digests, input and optional output
digests, and an optional terminate state. -/
structure Rv32imV2Claim where
  pre_state : Digest
  post_state : Digest
  input : Digest
  output : Option Digest
  terminate_state : Option TerminateState
deriving DecidableEq, Repr

/-- The result of running Rust code that may `panic!`. -/
inductive PanicOr (α : Type) where
  | panicked (msg : String)
  | value (v : α)
deriving DecidableEq, Repr

/-- The `halt` type constants of `context/v2.rs`. -/
def halt.TERMINATE : Nat := 0

/-- The `halt` type constants of `context/v2.rs`. -/
def halt.PAUSE : Nat := 1

/-- The `halt` type constants of `context/v2.rs`. -/
def halt.SPLIT : Nat := 2

/-- `exit_code_from_rv32im_v2_claim` from `context/v2.rs` (identical to
`exit_code_from_rv32im_v4_claim` in `context/v3.rs`): a missing
terminate state is `SystemSplit`; halt type `TERMINATE` is `Halted`,
`PAUSE` is `Paused`, and any other halt type hits
`panic!("Illegal halt type")` even though the function returns a
`Result`. -/
def exit_code_from_rv32im_v2_claim (claim : Rv32imV2Claim) :
    PanicOr (Except VErr ExitCode) :=
  match claim.terminate_state with
  | some term =>
    let user_exit := term.a0.fst
    let halt_type := term.a0.snd
    if halt_type = halt.TERMINATE then .value (.ok (.Halted user_exit))
    else if halt_type = halt.PAUSE then .value (.ok (.Paused user_exit))
    else .panicked "Illegal halt type"
  | none => .value (.ok .SystemSplit)

/-- `decode_from_seal` from `context/v2.rs`, parametrized by the external
`Rv32imV2Claim::decode` of the `risc0_circuit_rv32im_v2` crate (`none`
models its decode failure, surfaced as `InvalidProof`): translate the
decoded claim to a `ReceiptClaim` whose post-state merkle root is zeroed
for `Halted` exits and whose input and output are pruned digests. -/
def decode_from_seal_v2 (claim_decode : List Nat → Option Rv32imV2Claim)
    (seal' : List Nat) : PanicOr (Except VErr ReceiptClaim) :=
  match claim_decode seal' with
  | none => .value (.error .InvalidProof)
  | some claim =>
    match exit_code_from_rv32im_v2_claim claim with
    | .panicked m => .panicked m
    | .value (.error e) => .value (.error e)
    | .value (.ok exit_code) =>
      let post_state := match exit_code with
        | .Halted _ => Digest.ZERO
        | _ => claim.post_state
      .value (.ok
        { pre := .Value { pc := 0, merkle_root := claim.pre_state }
          post := .Value { pc := 0, merkle_root := post_state }
          exit_code := exit_code
          input := .Pruned claim.input
          output := .Pruned (claim.output.getD Digest.ZERO) })

/-- `POSEIDON2_CELLS`: width of the Poseidon2 permutation state. -/
def POSEIDON2_CELLS : Nat := 24

/-- `CELLS_RATE`: rate of the Poseidon2 sponge. -/
def CELLS_RATE : Nat := 16

/-- `CELLS_OUT`: number of state cells emitted as the digest. -/
def CELLS_OUT : Nat := 8

/-- Sequential overwrite of list positions starting at `u` (the cell
writes of the Rust loops, one `state[i] = v` per element). -/
def overwrite : List Nat → Nat → List Nat → List Nat
  | state, _, [] => state
  | state, u, v :: rest => overwrite (state.set u v) (u + 1) rest

/-- The absorption loop of `Poseidon2Impl::unpadded_hash` from
`poseidon2_injection.rs`: write each element at the next unmixed cell;
when `CELLS_RATE` cells have been filled, apply the built-in free
function `poseidon2_mix` (the first argument) and reset the unmixed
counter. Returns the state and the final unmixed count. -/
def absorbLoop (builtin_mix : List Nat → List Nat) :
    List Nat → Nat → List Nat → List Nat × Nat
  | state, unmixed, [] => (state, unmixed)
  | state, unmixed, v :: rest =>
    let st := state.set unmixed v
    if unmixed + 1 = CELLS_RATE then absorbLoop builtin_mix (builtin_mix st) 0 rest
    else absorbLoop builtin_mix st (unmixed + 1) rest

/-- The zero padding of `Poseidon2Impl::unpadded_hash`: cells
`unmixed .. CELLS_RATE - 1` are set to zero. -/
def zero_pad (state : List Nat) (unmixed : Nat) : List Nat :=
  overwrite state unmixed (List.replicate (CELLS_RATE - unmixed) 0)

/-- `Poseidon2Impl::unpadded_hash` from `poseidon2_injection.rs`,
parametrized by the built-in `poseidon2_mix` free function (applied
inside the absorption loop at every full rate chunk) and the
caller-supplied `Poseidon2Mix` (applied once at the end, after zero
padding, when a partial chunk remains or the input was empty). Elements
are the stored 32-bit Montgomery words of `BabyBearElem`. The result is
the first `CELLS_OUT` state cells. -/
def unpadded_hash (builtin_mix supplied_mix : List Nat → List Nat)
    (input : List Nat) : List Nat :=
  let r := absorbLoop builtin_mix (List.replicate POSEIDON2_CELLS 0) 0 input
  let state2 :=
    if r.snd ≠ 0 ∨ input.length = 0 then supplied_mix (zero_pad r.fst r.snd)
    else r.fst
  state2.take CELLS_OUT

/-- `to_digest` from `poseidon2_injection.rs`: the first `DIGEST_WORDS`
(eight) elements, each reduced Montgomery element read as one 32-bit
word. -/
def to_digest (elems : List Nat) : Digest := elems.take 8

/-- The `hash_pair` operation of the wrapped `HashFn` from
`poseidon2_injection.rs`: the unpadded hash of the sixteen raw digest
words of the two inputs. -/
def poseidon2_hash_pair (builtin_mix supplied_mix : List Nat → List Nat)
    (a b : Digest) : Digest :=
  to_digest (unpadded_hash builtin_mix supplied_mix (a ++ b))

/-- Chunk-level sponge iteration: absorb one full rate-sized chunk into
the front of the state and mix, `k` times. Returns the state and the
unabsorbed remainder. -/
def spongeIter (mix : List Nat → List Nat) (state : List Nat) :
    Nat → List Nat → List Nat × List Nat
  | 0, input => (state, input)
  | k + 1, input =>
    spongeIter mix (mix (overwrite state 0 (input.take CELLS_RATE))) k (input.drop CELLS_RATE)

/-- The chunk-structured description of the unpadded sponge: absorb every
full rate-sized chunk with `chunk_mix` applied after each, then, when a
partial chunk remains or the input was empty, absorb the zero-padded
remainder and apply `final_mix` once; emit the first `CELLS_OUT`
cells. Instantiating `chunk_mix` and `final_mix` with the same function
gives the construction as the specification words it (every mix through
one function). -/
def sponge_spec (chunk_mix final_mix : List Nat → List Nat) (input : List Nat) : List Nat :=
  let r := spongeIter chunk_mix (List.replicate POSEIDON2_CELLS 0)
    (input.length / CELLS_RATE) input
  let state2 :=
    if input.length % CELLS_RATE ≠ 0 ∨ input.length = 0 then
      final_mix (overwrite r.fst 0 (r.snd ++ List.replicate (CELLS_RATE - r.snd.length) 0))
    else r.fst
  state2.take CELLS_OUT

/-- A small concrete executable hash implementation, used to instantiate
the abstract SHA-256 interface in witnesses and counterexamples. -/
def S0 : Sha :=
  { hashBytes := fun l => (l.length + 1) % 4294967296 :: List.replicate 7 0
    hashRawWords := fun l =>
      (l.foldr (fun a b => a + b) 0 + 2) % 4294967296 :: List.replicate 7 0 }

/-- A concrete digest used in witnesses. -/
def d1 : Digest := 1 :: List.replicate 7 0

/-- A concrete digest used in witnesses. -/
def d9 : Digest := 9 :: List.replicate 7 0

/-- A context whose receipt-shape check accepts everything and whose
integrity oracles succeed, used in witnesses. -/
def ctx0 : Ctx :=
  .mk (fun _ => true) (fun _ => .ok ()) (fun _ => .ok ()) (fun _ => .ok ()) (fun _ => none)

/-- A v2-shaped context: the receipt-shape check of `context/v2.rs`,
with succeeding integrity oracles, used in witnesses. -/
def ctx3 : Ctx :=
  .mk V2.is_valid_receipt (fun _ => .ok ()) (fun _ => .ok ()) (fun _ => .ok ()) (fun _ => none)

/-- A concrete claim used in witness receipts. -/
def claim0 : ReceiptClaim :=
  { pre := .Pruned Digest.ZERO
    post := .Value { pc := 0, merkle_root := Digest.ZERO }
    exit_code := .SystemSplit
    input := .Value none
    output := .Value none }

/-- A concrete segment receipt labelled `"sha-256"`, used for the v2
receipt-shape rejection witness. -/
def segSha : SegmentReceipt :=
  { seal' := [], index := 0, hashfn := "sha-256"
    verifier_parameters := Digest.ZERO, claim := claim0 }

/-- A concrete segment receipt whose claim's post-state is pruned, used
for the composite post-state counterexample. -/
def segPP : SegmentReceipt :=
  { seal' := [], index := 0, hashfn := "poseidon2"
    verifier_parameters := Digest.ZERO
    claim := { pre := .Pruned Digest.ZERO
               post := .Pruned d1
               exit_code := .SystemSplit
               input := .Value none
               output := .Value none } }

/-- The digest, under `S0`, of the zeroed post system state of `segV`,
used to chain a following segment's pre-state in witnesses. -/
def dPost : Digest := SystemState.digest S0 { pc := 0, merkle_root := Digest.ZERO }

/-- A concrete segment receipt with an unpruned post-state, exit code
`SystemSplit` and no output, used as a chain element in witnesses. -/
def segV : SegmentReceipt :=
  { seal' := [], index := 0, hashfn := "poseidon2", verifier_parameters := Digest.ZERO
    claim := { pre := .Pruned Digest.ZERO
               post := .Value { pc := 0, merkle_root := Digest.ZERO }
               exit_code := .SystemSplit
               input := .Value none
               output := .Value none } }

/-- A concrete segment receipt with a pruned post-state whose pre-state
digest chains from `segV`'s post-state, used in the composite post-state
witness. -/
def segPP2 : SegmentReceipt :=
  { seal' := [], index := 0, hashfn := "poseidon2", verifier_parameters := Digest.ZERO
    claim := { pre := .Pruned dPost
               post := .Pruned d1
               exit_code := .SystemSplit
               input := .Value none
               output := .Value none } }

/-- A concrete succinct receipt with a pruned claim, used in the
top-level verification witness. -/
def succ0 : SuccinctReceiptR :=
  { seal' := [], control_id := Digest.ZERO, claim := .Pruned d1
    hashfn := "poseidon2", verifier_parameters := Digest.ZERO
    control_inclusion_proof := { index := 0, digests := [] } }

/-- A concrete claim translated from the v2 circuit whose terminate
state carries halt type `SPLIT` (2), the input on which the v2/v3
exit-code translation panics. -/
def badV2Claim : Rv32imV2Claim :=
  { pre_state := Digest.ZERO, post_state := Digest.ZERO, input := Digest.ZERO
    output := none, terminate_state := some { a0 := { fst := 0, snd := 2 } } }

/-- A concrete state-permutation function distinct from the identity,
standing in for the built-in `poseidon2_mix` in the sponge
counterexample. -/
def bm0 (l : List Nat) : List Nat := l.map (fun x => x + 1)

/-- A concrete claim with exit code `SessionLimit` and unpruned pre and
post states, used in the encode/decode counterexample. -/
def claimSL : ReceiptClaim :=
  { pre := .Value { pc := 1, merkle_root := Digest.ZERO }
    post := .Value { pc := 0, merkle_root := Digest.ZERO }
    exit_code := .SessionLimit
    input := .Value none
    output := .Pruned Digest.ZERO }

deriving instance DecidableEq for Except

/-- A concrete claim with exit code `Halted 0` and unpruned pre and post
states, used in the encode/decode witness. -/
def claimH : ReceiptClaim :=
  { pre := .Value { pc := 1, merkle_root := Digest.ZERO }
    post := .Value { pc := 0, merkle_root := Digest.ZERO }
    exit_code := .Halted 0
    input := .Value none
    output := .Pruned Digest.ZERO }

/-- The flat encoding of `claimSL` (the `SessionLimit` claim). -/
def flatSL : List Nat :=
  match ReceiptClaim.encode S0 claimSL with
  | .ok flat => flat
  | .error _ => []

/-- Claim C9: for every value of a digestible type, the digest of
`MaybePruned::Value(x)` equals the digest of
`MaybePruned::Pruned(digest_of(x))`; consequently pruning a subtree of a
Merkle-ized struct (here the `pre` field of a `ReceiptClaim`) leaves the
overall structural hash unchanged. -/
theorem C9_pruned_digest_invariant :
    (∀ (T : Type) (dg : T → Digest) (x : T),
      MaybePruned.digest dg (.Value x) = MaybePruned.digest dg (.Pruned (dg x))) ∧
    (∀ (S : Sha) (c : ReceiptClaim) (s : SystemState),
      ReceiptClaim.digest S { c with pre := .Value s } =
        ReceiptClaim.digest S { c with pre := .Pruned (SystemState.digest S s) }) := by
  exact ⟨fun T dg x => rfl, fun S c s => rfl⟩

/-- Claim C4: the v2/v3 exit-code translation panics on an unrecognized
halt type instead of returning a `VerificationError`, although its
signature is fallible: at a terminate state with halt type 2 (`SPLIT`),
both `exit_code_from_rv32im_v2_claim` and the seal decoding built on it
abort with `panic!("Illegal halt type")`. -/
theorem C4_halt_type_panics :
    exit_code_from_rv32im_v2_claim badV2Claim = .panicked "Illegal halt type" ∧
    decode_from_seal_v2 (fun _ => some badV2Claim) [] = .panicked "Illegal halt type" := by
  exact ⟨rfl, rfl⟩

/-- Claim C2, counterexample: the `check_code_fn` that `V2::verify_segment`
passes to the STARK engine succeeds on a control id that is not a member
of any control-id set (here the empty set), instead of returning
`ControlVerificationError` as the claim states for every context
version. -/
theorem C2_counterexample :
    check_code_v2 0 d1 = .ok () ∧ d1 ∉ ([] : List Digest) ∧
    check_code_v2 0 d1 ≠ .error (.ControlVerificationError d1) := by
  refine ⟨rfl, by simp, by simp [check_code_v2]⟩

/-- Claim C2, amended: the `check_code` of the v1 segment dispatch
(`segment.rs` and `V1::verify_segment`) succeeds iff the presented
control id is a member of `params.control_ids` and otherwise returns
`ControlVerificationError` carrying that id; the v2/v3 segment dispatch
passes a `check_code` that always succeeds. -/
theorem C2_check_code_membership (ids : List Digest) (cid : Digest) (po2 : Nat) :
    (check_code_v1 ids cid = .ok () ↔ cid ∈ ids) ∧
    (cid ∉ ids → check_code_v1 ids cid = .error (.ControlVerificationError cid)) ∧
    check_code_v2 po2 cid = .ok () := by
  refine ⟨?_, ?_, rfl⟩ <;> unfold check_code_v1 <;> split <;> simp_all

/-- Witness for the amended claim C2 at a concrete non-member id. -/
theorem C2_check_code_membership_witness :
    check_code_v1 [] d1 = .error (.ControlVerificationError d1) :=
  (C2_check_code_membership [] d1 0).2.1 (by simp)

/-- Claim C10: a composite receipt with an empty segment list is never
accepted: for every context, `verify_integrity_with_context` returns
`ReceiptFormatError` with no STARK verification dispatched, and `claim`
also returns `ReceiptFormatError`. -/
theorem C10_empty_composite_rejected (S : Sha) (ctx : Ctx)
    (ars : List InnerAssumptionReceipt) (vp : Digest) :
    CompositeReceipt.verify_integrity S ctx (.mk [] ars vp) =
      (.error .ReceiptFormatError, []) ∧
    CompositeReceipt.claim (.mk [] ars vp) = .error .ReceiptFormatError := by
  constructor
  · simp [CompositeReceipt.verify_integrity, splitLast]
  · rfl

/-- Claim C7, counterexample: on an unpruned assumptions list, `resolve`
succeeds whenever the head digest matches, with the `tail` argument
ignored: here the digest of the remaining (empty) list is the zero
digest, yet `resolve` succeeds with a `tail` argument different from
it. -/
theorem C7_counterexample :
    MaybePruned.resolve_assumptions S0 (.Value [.Pruned d1]) d1 d9 = .ok (.Value []) ∧
    Assumptions.digest S0 [] = Digest.ZERO ∧ d9 ≠ Digest.ZERO := by
  refine ⟨rfl, rfl, by decide⟩

/-- Claim C7, amended: `resolve(resolved, tail)` on an unpruned list
succeeds iff the list is nonempty and the head digest equals `resolved`
(the `tail` argument is ignored there), dropping the head on success; on
a pruned list it succeeds iff the cons digest rebuilt from `resolved`
and `tail` equals the stored digest, the digest becoming `tail`; all
other cases return an error and leave the list unchanged. -/
theorem C7_resolve_characterization (S : Sha) (head : MaybePruned Assumption)
    (rest : Assumptions) (ld resolved tail : Digest) :
    (MaybePruned.resolve_assumptions S (.Value (head :: rest)) resolved tail =
       if MaybePruned.digest (Assumption.digest S) head = resolved
       then .ok (.Value rest)
       else .error "resolved assumption is not equal to the head of the list") ∧
    (MaybePruned.resolve_assumptions S (.Value []) resolved tail =
       .error "cannot resolve assumption from empty list") ∧
    (MaybePruned.resolve_assumptions S (.Pruned ld) resolved tail =
       if taggedListCons S "risc0.Assumptions" resolved tail = ld
       then .ok (.Pruned tail)
       else .error "reconstructed list digest does not match") ∧
    (∀ tail2, MaybePruned.resolve_assumptions S (.Value (head :: rest)) resolved tail =
       MaybePruned.resolve_assumptions S (.Value (head :: rest)) resolved tail2) := by
  refine ⟨?_, rfl, rfl, fun tail2 => rfl⟩
  by_cases h : MaybePruned.digest (Assumption.digest S) head = resolved <;>
    simp [MaybePruned.resolve_assumptions, Assumptions.resolve, h, Except.map]

/-- Witness for the amended claim C7 at concrete inputs. -/
theorem C7_resolve_characterization_witness :
    MaybePruned.resolve_assumptions S0 (.Value []) d1 d9 =
      .error "cannot resolve assumption from empty list" :=
  (C7_resolve_characterization S0 (.Pruned d1) [] d1 d1 d9).2.1

/-- If collecting the assumptions of a segment list succeeds, the
aggregate claim of that list is available. -/
theorem claim_of_ok_of_assumptions (segs : List SegmentReceipt) (l : List Assumption)
    (h : assumptions_of segs = .ok l) : ∃ rc, claim_of segs = .ok rc := by
  cases segs with
  | nil => simp [assumptions_of] at h
  | cons a t =>
    cases hl : (a :: t).getLast? with
    | none => simp [assumptions_of, hl] at h
    | some last =>
      cases ho : last.claim.output with
      | Pruned d => simp [assumptions_of, hl, ho] at h
      | Value o =>
        simp only [claim_of, List.head?_cons, hl, ho]
        exact ⟨_, rfl⟩

/-- If composite integrity verification succeeds, the composite claim is
available (the integrity pipeline has already opened the last segment's
output). -/
theorem comp_integrity_ok_claim (S : Sha) (ctx : Ctx) (c : CompositeReceipt)
    (h : (CompositeReceipt.verify_integrity S ctx c).fst = .ok ()) :
    ∃ rc, CompositeReceipt.claim c = .ok rc := by
  obtain ⟨segs, ars, vp⟩ := c
  simp only [CompositeReceipt.verify_integrity] at h
  split at h
  · simp at h
  next receipts final_receipt heqSplit =>
    split at h
    next e t heqChain => simp at h
    next expected t1 heqChain =>
      split at h
      next e heqInteg => simp at h
      next u heqInteg =>
        split at h
        · split at h
          next e heqAs => simp at h
          next l heqAs => exact claim_of_ok_of_assumptions segs l heqAs
        · simp at h

/-- Claim C5, counterexample: a single-segment composite receipt whose
(final) segment has a pruned post-state passes integrity verification;
the final segment's post-state is never read as a `Value` there, so no
`ReceiptFormatError` arises from it. -/
theorem C5_counterexample :
    (CompositeReceipt.verify_integrity S0 ctx0 (.mk [segPP] [] Digest.ZERO)).fst = .ok () ∧
    segPP.claim.post = .Pruned d1 := by
  constructor
  · simp [CompositeReceipt.verify_integrity, splitLast, chain_loop, assumptions_of,
      assumption_loop, ctx0, segPP, Ctx.segment_integrity, preStateOk,
      MaybePruned.assumptions_is_empty]
  · rfl

/-- `split_last` on a list with its last element exposed. -/
theorem splitLast_concat {α : Type} (l : List α) (a : α) :
    splitLast (l ++ [a]) = some (l, a) := by
  simp [splitLast, List.getLast?_concat, List.dropLast_concat]

/-- The chain loop over a concatenation: when the first part succeeds,
its recorded post-state digest seeds the loop over the second part. -/
theorem chain_loop_append_ok (S : Sha) (ctx : Ctx) (l1 : List SegmentReceipt) :
    ∀ (expected e : Option Digest) (l2 : List SegmentReceipt),
      (chain_loop S ctx expected l1).fst = .ok e →
      (chain_loop S ctx expected (l1 ++ l2)).fst = (chain_loop S ctx e l2).fst := by
  induction l1 with
  | nil =>
    intro expected e l2 h
    simp [chain_loop] at h
    subst h
    simp
  | cons r rest ih =>
    intro expected e l2 h
    cases hI : ctx.segment_integrity r with
    | error err => simp [chain_loop, hI] at h
    | ok u =>
      by_cases hpre : preStateOk expected
          (MaybePruned.digest (SystemState.digest S) r.claim.pre) = true
      · by_cases hexit : r.claim.exit_code = .SystemSplit
        · by_cases hout : r.claim.output.is_none = true
          · cases hpost : r.claim.post with
            | Pruned d => simp [chain_loop, hI, hpre, hexit, hout, hpost] at h
            | Value ps =>
              simp only [chain_loop, hI, hpre, hexit, hout, hpost, if_true, List.cons_append] at h ⊢
              exact ih _ e l2 h
          · simp [chain_loop, hI, hpre, hexit, hout] at h
        · simp [chain_loop, hI, hpre, hexit] at h
      · simp [chain_loop, hI, hpre] at h

/-- The chain loop rejects a head segment with a pruned post-state (its
other checks passing) with exactly `ReceiptFormatError`. -/
theorem chain_loop_pruned_post (S : Sha) (ctx : Ctx) (e : Option Digest)
    (r : SegmentReceipt) (l2 : List SegmentReceipt) (d : Digest)
    (hI : ctx.segment_integrity r = .ok ())
    (hpre : preStateOk e (MaybePruned.digest (SystemState.digest S) r.claim.pre) = true)
    (hexit : r.claim.exit_code = .SystemSplit)
    (hout : r.claim.output.is_none = true)
    (hpost : r.claim.post = .Pruned d) :
    chain_loop S ctx e (r :: l2) = (.error .ReceiptFormatError, [.segment r]) := by
  simp [chain_loop, hI, hpre, hexit, hout, hpost]

/-- When the chain loop succeeds, every segment it traversed had an
unpruned post-state: the loop opened each one with `as_value`. -/
theorem chain_loop_ok_posts (S : Sha) (ctx : Ctx) (l : List SegmentReceipt) :
    ∀ (expected e : Option Digest),
      (chain_loop S ctx expected l).fst = .ok e →
      ∀ r ∈ l, ∃ ps, r.claim.post = .Value ps := by
  induction l with
  | nil => intro _ _ _ r hr; simp at hr
  | cons a rest ih =>
    intro expected e h r hr
    cases hI : ctx.segment_integrity a with
    | error err => simp [chain_loop, hI] at h
    | ok u =>
      by_cases hpre : preStateOk expected
          (MaybePruned.digest (SystemState.digest S) a.claim.pre) = true
      · by_cases hexit : a.claim.exit_code = .SystemSplit
        · by_cases hout : a.claim.output.is_none = true
          · cases hpost : a.claim.post with
            | Pruned d => simp [chain_loop, hI, hpre, hexit, hout, hpost] at h
            | Value ps =>
              simp only [chain_loop, hI, hpre, hexit, hout, hpost, if_true] at h
              rcases List.mem_cons.mp hr with rfl | hr'
              · exact ⟨ps, hpost⟩
              · exact ih _ e h r hr'
          · simp [chain_loop, hI, hpre, hexit, hout] at h
        · simp [chain_loop, hI, hpre, hexit] at h
      · simp [chain_loop, hI, hpre] at h

/-- Composite integrity success implies the chain loop over the
non-final segments succeeded. -/
theorem comp_integrity_ok_chain (S : Sha) (ctx : Ctx) (segs : List SegmentReceipt)
    (ars : List InnerAssumptionReceipt) (vp : Digest)
    (h : (CompositeReceipt.verify_integrity S ctx (.mk segs ars vp)).fst = .ok ()) :
    ∃ e, (chain_loop S ctx none segs.dropLast).fst = .ok e := by
  simp only [CompositeReceipt.verify_integrity] at h
  split at h
  · simp at h
  next receipts fin heqSplit =>
    have hr : receipts = segs.dropLast := by
      unfold splitLast at heqSplit
      cases hg : segs.getLast? with
      | none => rw [hg] at heqSplit; simp at heqSplit
      | some a =>
        rw [hg] at heqSplit
        simp at heqSplit
        exact heqSplit.1.symm
    subst hr
    split at h
    next e t heqChain => simp at h
    next expected t1 heqChain => exact ⟨expected, by rw [heqChain]⟩

/-- Claim C5, amended: during composite integrity verification every
non-final segment's claim post-state is read as an unpruned `Value`:
when verification succeeds, every non-final segment's post-state is an
unpruned value (first conjunct), and a pruned post-state at any
non-final position that the loop reaches yields exactly
`ReceiptFormatError` (second conjunct, with arbitrary segments before
and after it); the final segment's post-state is not read, so a
composite whose final segment has a pruned post-state still verifies
(third conjunct, with an arbitrary verified chain before it). -/
theorem C5_post_state_reading (S : Sha) (ctx : Ctx) :
    (∀ (c : CompositeReceipt),
      (CompositeReceipt.verify_integrity S ctx c).fst = .ok () →
      ∀ r ∈ c.segments.dropLast, ∃ ps, r.claim.post = .Value ps) ∧
    (∀ (l1 l2 : List SegmentReceipt) (r fin : SegmentReceipt)
       (ars : List InnerAssumptionReceipt) (vp d : Digest) (e : Option Digest),
      (chain_loop S ctx none l1).fst = .ok e →
      ctx.segment_integrity r = .ok () →
      preStateOk e (MaybePruned.digest (SystemState.digest S) r.claim.pre) = true →
      r.claim.exit_code = .SystemSplit →
      r.claim.output.is_none = true →
      r.claim.post = .Pruned d →
      (CompositeReceipt.verify_integrity S ctx
        (.mk (l1 ++ r :: l2 ++ [fin]) ars vp)).fst = .error .ReceiptFormatError) ∧
    (∀ (l : List SegmentReceipt) (fin : SegmentReceipt) (vp d : Digest)
       (e : Option Digest),
      (chain_loop S ctx none l).fst = .ok e →
      ctx.segment_integrity fin = .ok () →
      preStateOk e (MaybePruned.digest (SystemState.digest S) fin.claim.pre) = true →
      fin.claim.output = .Value none →
      fin.claim.post = .Pruned d →
      (CompositeReceipt.verify_integrity S ctx (.mk (l ++ [fin]) [] vp)).fst = .ok ()) := by
  refine ⟨?_, ?_, ?_⟩
  · intro c hok r hr
    obtain ⟨segs, ars, vp⟩ := c
    obtain ⟨e, he⟩ := comp_integrity_ok_chain S ctx segs ars vp hok
    exact chain_loop_ok_posts S ctx segs.dropLast none e he r hr
  · intro l1 l2 r fin ars vp d e hl1 hI hpre hexit hout hpost
    have hsegs : l1 ++ r :: l2 ++ [fin] = (l1 ++ r :: l2) ++ [fin] := by simp
    have hfst : (chain_loop S ctx none (l1 ++ r :: l2)).fst = .error .ReceiptFormatError := by
      rw [chain_loop_append_ok S ctx l1 none e (r :: l2) hl1]
      rw [chain_loop_pruned_post S ctx e r l2 d hI hpre hexit hout hpost]
    obtain ⟨res, tr, hpair⟩ :
        ∃ res tr, chain_loop S ctx none (l1 ++ r :: l2) = (res, tr) := ⟨_, _, rfl⟩
    have hres : res = .error .ReceiptFormatError := by
      rw [hpair] at hfst
      exact hfst
    subst hres
    rw [hsegs]
    simp only [CompositeReceipt.verify_integrity, splitLast_concat, hpair]
  · intro l fin vp d e hl hI hpre hout hpost
    obtain ⟨res, tr, hpair⟩ : ∃ res tr, chain_loop S ctx none l = (res, tr) := ⟨_, _, rfl⟩
    have hres : res = .ok e := by
      rw [hpair] at hl
      exact hl
    subst hres
    simp [CompositeReceipt.verify_integrity, splitLast_concat, hpair, hI, hpre,
      assumptions_of, List.getLast?_concat, hout, assumption_loop]

/-- Witness for the amended claim C5 at concrete receipts: a pruned
post-state at the second position of a four-segment composite is
rejected with `ReceiptFormatError`, and a two-segment composite whose
final segment has a pruned post-state verifies. -/
theorem C5_post_state_reading_witness :
    (CompositeReceipt.verify_integrity S0 ctx0
      (.mk ([segV] ++ segPP2 :: [segV] ++ [segV]) [] Digest.ZERO)).fst =
        .error .ReceiptFormatError ∧
    (CompositeReceipt.verify_integrity S0 ctx0
      (.mk ([segV] ++ [segPP2]) [] Digest.ZERO)).fst = .ok () :=
  ⟨(C5_post_state_reading S0 ctx0).2.1 [segV] [segV] segPP2 segV [] Digest.ZERO d1
      (some dPost) rfl rfl (by decide) rfl rfl rfl,
   (C5_post_state_reading S0 ctx0).2.2 [segV] segPP2 Digest.ZERO d1
      (some dPost) rfl rfl (by decide) rfl rfl⟩

/-- Claim C3: under a context with the v2/v3 receipt-shape check, a
proof whose inner receipt is composite with a segment labelled
`"sha-256"` is rejected by `Proof::verify` with `ReceiptFormatError`,
and the dispatch trace is empty: no STARK verification (segment or
succinct) is invoked. -/
theorem C3_v2_sha256_rejected_before_stark (S : Sha) (ctx : Ctx) (image_id pubs : Digest)
    (c : CompositeReceipt) (s : SegmentReceipt)
    (hctx : ctx.is_valid_receipt = V2.is_valid_receipt)
    (hs : s ∈ c.segments) (hf : s.hashfn = "sha-256") :
    Proof.verify S ctx image_id pubs ⟨.Composite c⟩ = (.error .ReceiptFormatError, []) := by
  have hany : c.segments.any (fun x => x.hashfn == "sha-256") = true :=
    List.any_eq_true.mpr ⟨s, hs, by simp [hf]⟩
  have hv : ctx.is_valid_receipt ⟨.Composite c⟩ = false := by
    rw [hctx]
    simp [V2.is_valid_receipt, InnerReceipt.composite, hany]
  simp [Proof.verify, hv]

/-- Witness for claim C3 at a concrete v2-shaped context and receipt. -/
theorem C3_v2_sha256_rejected_before_stark_witness :
    Proof.verify S0 ctx3 Digest.ZERO Digest.ZERO
      ⟨.Composite (.mk [segSha] [] Digest.ZERO)⟩ =
      (.error .ReceiptFormatError, []) :=
  C3_v2_sha256_rejected_before_stark S0 ctx3 Digest.ZERO Digest.ZERO
    (.mk [segSha] [] Digest.ZERO) segSha rfl (by simp [CompositeReceipt.segments]) rfl

/-- Claim C1: for every verifier context, image id, proof and journal,
when the receipt-shape check and the inner integrity verification both
succeed, `verify` returns `Ok` iff the digest of
`ReceiptClaim::ok(image_id, Pruned(SHA256(journal_bytes)))` equals the
digest of the inner receipt's claim, and on inequality it returns
`ClaimDigestMismatch` carrying the expected and received digests. -/
theorem C1_verify_claim_digest (S : Sha) (ctx : Ctx) (image_id : Digest)
    (journal : List Nat) (p : Proof)
    (hvalid : ctx.is_valid_receipt p = true)
    (hinteg : (InnerReceipt.verify_integrity S ctx p.inner).fst = .ok ()) :
    ∃ mc, InnerReceipt.claim p.inner = .ok mc ∧
      (((Verifier.verify S ctx image_id p journal).fst = .ok ()) ↔
        ReceiptClaim.digest S (ReceiptClaim.ok image_id (.Pruned (journalDigest S journal))) =
          MaybePruned.digest (ReceiptClaim.digest S) mc) ∧
      (ReceiptClaim.digest S (ReceiptClaim.ok image_id (.Pruned (journalDigest S journal))) ≠
          MaybePruned.digest (ReceiptClaim.digest S) mc →
        (Verifier.verify S ctx image_id p journal).fst =
          .error (.ClaimDigestMismatch
            (ReceiptClaim.digest S
              (ReceiptClaim.ok image_id (.Pruned (journalDigest S journal))))
            (MaybePruned.digest (ReceiptClaim.digest S) mc))) := by
  have hclaim : ∃ mc, InnerReceipt.claim p.inner = .ok mc := by
    cases hpi : p.inner with
    | Succinct s => exact ⟨s.claim, rfl⟩
    | Composite c =>
      rw [hpi] at hinteg
      obtain ⟨rc, hrc⟩ := comp_integrity_ok_claim S ctx c hinteg
      exact ⟨.Value rc, by simp [InnerReceipt.claim, hrc, Except.map]⟩
  obtain ⟨mc, hmc⟩ := hclaim
  have hpair : InnerReceipt.verify_integrity S ctx p.inner =
      (.ok (), (InnerReceipt.verify_integrity S ctx p.inner).snd) := by
    rw [← hinteg]
  by_cases hd : ReceiptClaim.digest S
      (ReceiptClaim.ok image_id (.Pruned (journalDigest S journal))) =
      MaybePruned.digest (ReceiptClaim.digest S) mc
  · have hok : (Verifier.verify S ctx image_id p journal).fst = .ok () := by
      unfold Verifier.verify Proof.verify
      rw [hpair, hmc]
      simp [hvalid, hd]
    exact ⟨mc, hmc, by simp [hok, hd], fun hcontra => absurd hd hcontra⟩
  · have herr : (Verifier.verify S ctx image_id p journal).fst =
        .error (.ClaimDigestMismatch
          (ReceiptClaim.digest S
            (ReceiptClaim.ok image_id (.Pruned (journalDigest S journal))))
          (MaybePruned.digest (ReceiptClaim.digest S) mc)) := by
      unfold Verifier.verify Proof.verify
      rw [hpair, hmc]
      simp [hvalid, hd]
    exact ⟨mc, hmc, by simp [herr, hd], fun _ => herr⟩

/-- Witness for claim C1 at a concrete context and succinct proof. -/
theorem C1_verify_claim_digest_witness :
    ∃ mc, InnerReceipt.claim (Proof.mk (.Succinct succ0)).inner = .ok mc ∧
      (((Verifier.verify S0 ctx0 Digest.ZERO ⟨.Succinct succ0⟩ []).fst = .ok ()) ↔
        ReceiptClaim.digest S0 (ReceiptClaim.ok Digest.ZERO (.Pruned (journalDigest S0 []))) =
          MaybePruned.digest (ReceiptClaim.digest S0) mc) ∧
      (ReceiptClaim.digest S0 (ReceiptClaim.ok Digest.ZERO (.Pruned (journalDigest S0 []))) ≠
          MaybePruned.digest (ReceiptClaim.digest S0) mc →
        (Verifier.verify S0 ctx0 Digest.ZERO ⟨.Succinct succ0⟩ []).fst =
          .error (.ClaimDigestMismatch
            (ReceiptClaim.digest S0
              (ReceiptClaim.ok Digest.ZERO (.Pruned (journalDigest S0 []))))
            (MaybePruned.digest (ReceiptClaim.digest S0) mc))) :=
  C1_verify_claim_digest S0 ctx0 Digest.ZERO [] ⟨.Succinct succ0⟩ rfl rfl

/-- Sequential overwrites compose over list concatenation. -/
theorem overwrite_append (l1 : List Nat) :
    ∀ (state : List Nat) (u : Nat) (l2 : List Nat),
      overwrite state u (l1 ++ l2) = overwrite (overwrite state u l1) (u + l1.length) l2 := by
  induction l1 with
  | nil => intro state u l2; simp [overwrite]
  | cons v tl ih =>
    intro state u l2
    simp only [List.cons_append, overwrite, List.length_cons, List.append_eq]
    rw [ih]
    congr 1
    omega

/-- The absorption loop on fewer elements than fill the rate writes them
sequentially without mixing. -/
theorem absorbLoop_partial (bm : List Nat → List Nat) (l : List Nat) :
    ∀ (state : List Nat) (u : Nat), u + l.length < CELLS_RATE →
      absorbLoop bm state u l = (overwrite state u l, u + l.length) := by
  induction l with
  | nil => intro state u h; simp [absorbLoop, overwrite]
  | cons v tl ih =>
    intro state u h
    simp only [List.length_cons] at h
    have hne : ¬(u + 1 = CELLS_RATE) := by omega
    simp only [absorbLoop, hne, if_false]
    rw [ih (state.set u v) (u + 1) (by omega)]
    simp only [overwrite, List.length_cons]
    congr 1
    omega

/-- The absorption loop on a chunk that exactly fills the rate writes it
and applies the built-in mix, then continues on the remainder. -/
theorem absorbLoop_chunk (bm : List Nat → List Nat) (l : List Nat) :
    ∀ (state : List Nat) (u : Nat) (rest : List Nat),
      l ≠ [] → u + l.length = CELLS_RATE →
      absorbLoop bm state u (l ++ rest) =
        absorbLoop bm (bm (overwrite state u l)) 0 rest := by
  induction l with
  | nil => intro _ _ _ hne _; exact absurd rfl hne
  | cons v tl ih =>
    intro state u rest _ h
    cases tl with
    | nil =>
      have hu : u + 1 = CELLS_RATE := by simpa using h
      simp [absorbLoop, hu, overwrite]
    | cons w tw =>
      simp only [List.length_cons] at h
      have hne : ¬(u + 1 = CELLS_RATE) := by omega
      simp only [List.cons_append, absorbLoop, hne, if_false]
      exact ih (state.set u v) (u + 1) rest (by simp) (by simp only [List.length_cons]; omega)

/-- The absorption loop, started on a fresh chunk boundary, equals the
chunk-level sponge iteration followed by sequentially writing the
unabsorbed remainder; the remainder length is the input length modulo
the rate. -/
theorem absorb_eq_spongeIter (bm : List Nat → List Nat) :
    ∀ (n : Nat) (input state : List Nat), input.length ≤ n →
      absorbLoop bm state 0 input =
        (overwrite (spongeIter bm state (input.length / CELLS_RATE) input).fst 0
          (spongeIter bm state (input.length / CELLS_RATE) input).snd,
         input.length % CELLS_RATE) ∧
      (spongeIter bm state (input.length / CELLS_RATE) input).snd.length =
        input.length % CELLS_RATE := by
  have hCR : CELLS_RATE = 16 := rfl
  intro n
  induction n with
  | zero =>
    intro input state h
    have hnil : input = [] := List.eq_nil_of_length_eq_zero (Nat.le_zero.mp h)
    subst hnil
    simp [absorbLoop, spongeIter, overwrite]
  | succ n ih =>
    intro input state h
    by_cases hlt : input.length < CELLS_RATE
    · have hdiv : input.length / CELLS_RATE = 0 := Nat.div_eq_of_lt hlt
      have hmod : input.length % CELLS_RATE = input.length := Nat.mod_eq_of_lt hlt
      rw [hdiv, hmod]
      constructor
      · simp only [spongeIter]
        have := absorbLoop_partial bm input state 0 (by omega)
        simpa using this
      · simp [spongeIter]
    · have h16 : CELLS_RATE ≤ input.length := Nat.le_of_not_lt hlt
      have hlen_take : (input.take CELLS_RATE).length = CELLS_RATE := by
        simp [List.length_take]
        omega
      have hne : input.take CELLS_RATE ≠ [] := by
        intro hc
        rw [hc] at hlen_take
        rw [hCR] at hlen_take
        simp at hlen_take
      have hdlen : (input.drop CELLS_RATE).length = input.length - CELLS_RATE := by simp
      have hstep : absorbLoop bm state 0 input =
          absorbLoop bm (bm (overwrite state 0 (input.take CELLS_RATE))) 0
            (input.drop CELLS_RATE) := by
        conv_lhs => rw [← List.take_append_drop CELLS_RATE input]
        exact absorbLoop_chunk bm (input.take CELLS_RATE) state 0 (input.drop CELLS_RATE)
          hne (by rw [hlen_take]; omega)
      have hrec := ih (input.drop CELLS_RATE)
        (bm (overwrite state 0 (input.take CELLS_RATE)))
        (by rw [hdlen]; rw [hCR] at h16 ⊢; omega)
      rw [hdlen] at hrec
      have hdiv : input.length / CELLS_RATE =
          (input.length - CELLS_RATE) / CELLS_RATE + 1 := by
        rw [hCR] at h16 ⊢
        omega
      have hmod : input.length % CELLS_RATE = (input.length - CELLS_RATE) % CELLS_RATE := by
        rw [hCR] at h16 ⊢
        omega
      rw [hstep, hdiv, hmod]
      simpa only [spongeIter] using hrec

/-- Claim C6, counterexample: on a sixteen-element input (one full rate
chunk), the wrapped hash applies the built-in `poseidon2_mix` at the
chunk boundary and never calls the supplied mixer, so it differs from
the sponge built from the supplied mixer alone, contradicting the claim
that the supplied `poseidon2_mix` is called between full chunks. -/
theorem C6_counterexample :
    unpadded_hash bm0 id (List.replicate 16 5) ≠
      sponge_spec id id (List.replicate 16 5) := by decide

/-- Claim C6, amended: the wrapped hash applies an unpadded sponge in
which rate-sized chunks are absorbed with the built-in `poseidon2_mix`
applied at every full chunk, and the caller-supplied mixer is applied
exactly once at the end, to the zero-padded final partial chunk (also
when the input is empty); no final mix occurs when the input is a
nonzero multiple of the rate. The digest emitted is the first
`CELLS_OUT` state cells, one 32-bit word per reduced Montgomery
element, and `hash_pair` feeds the sixteen raw words of the two
digests through the same construction. -/
theorem C6_unpadded_sponge (builtin_mix supplied_mix : List Nat → List Nat)
    (input : List Nat) (a b : Digest) :
    unpadded_hash builtin_mix supplied_mix input =
      sponge_spec builtin_mix supplied_mix input ∧
    poseidon2_hash_pair builtin_mix supplied_mix a b =
      to_digest (sponge_spec builtin_mix supplied_mix (a ++ b)) := by
  have main : ∀ l : List Nat, unpadded_hash builtin_mix supplied_mix l =
      sponge_spec builtin_mix supplied_mix l := by
    intro l
    obtain ⟨h1, h2⟩ := absorb_eq_spongeIter builtin_mix l.length l
      (List.replicate POSEIDON2_CELLS 0) (le_refl _)
    simp only [unpadded_hash, sponge_spec, h1]
    by_cases hc : l.length % CELLS_RATE ≠ 0 ∨ l.length = 0
    · simp only [hc, if_pos, if_true]
      congr 2
      rw [zero_pad, ← h2, overwrite_append]
      simp
    · simp only [hc, if_false]
      have hz : l.length % CELLS_RATE = 0 := by
        by_contra hcon
        exact hc (Or.inl hcon)
      rw [hz] at h2
      have : (spongeIter builtin_mix (List.replicate POSEIDON2_CELLS 0)
          (l.length / CELLS_RATE) l).snd = [] := List.eq_nil_of_length_eq_zero h2
      rw [this]
      simp [overwrite]
  refine ⟨main input, ?_⟩
  rw [poseidon2_hash_pair, main (a ++ b)]

/-- Reading sha halves gives back the digest written as halves when its
words are 32-bit. -/
theorem read_halfs_words_of_write (d : List Nat) :
    ∀ rest : List Nat, (∀ w ∈ d, w < 4294967296) →
      read_halfs_words d.length (write_sha_halfs d ++ rest) = some (d, rest) := by
  induction d with
  | nil => intro rest _; simp [write_sha_halfs, read_halfs_words]
  | cons x tl ih =>
    intro rest hb
    have hx : x < 4294967296 := hb x (List.mem_cons_self x tl)
    have hw : write_sha_halfs (x :: tl) = x % 65536 :: x / 65536 :: write_sha_halfs tl := by
      simp [write_sha_halfs]
    rw [hw]
    simp only [List.length_cons, List.cons_append, List.append_eq, read_halfs_words]
    rw [ih rest (fun w hwm => hb w (List.mem_cons_of_mem x hwm))]
    simp [Option.map]
    omega

/-- `read_sha_halfs` inverts `write_sha_halfs` on wellformed digests. -/
theorem read_sha_halfs_of_write (d : Digest) (rest : List Nat) (h : d.wf) :
    read_sha_halfs (write_sha_halfs d ++ rest) = some (d, rest) := by
  have hr := read_halfs_words_of_write d rest h.2
  rw [h.1] at hr
  exact hr

/-- `read_u32_bytes` inverts `write_u32_bytes` on 32-bit words. -/
theorem read_u32_bytes_of_write (x : Nat) (rest : List Nat) (hx : x < 4294967296) :
    read_u32_bytes (write_u32_bytes x ++ rest) = some (x, rest) := by
  simp only [write_u32_bytes, List.cons_append, List.nil_append, read_u32_bytes,
    Option.some.injEq, Prod.mk.injEq, and_true]
  omega

/-- `SystemState::decode` inverts `SystemState::encode` on wellformed
states. -/
theorem systemState_decode_encode (s : SystemState) (rest : List Nat) (h : s.wf) :
    SystemState.decode (SystemState.encode s ++ rest) = some (s, rest) := by
  simp only [SystemState.encode, List.append_assoc, SystemState.decode,
    read_sha_halfs_of_write s.merkle_root _ h.2,
    read_u32_bytes_of_write s.pc rest h.1, Option.map]

/-- `ReceiptClaim::decode` on the concatenation that `ReceiptClaim::encode`
emits: the decoded claim has the two system states unpruned, the exit
code as interpreted by `ExitCode::from_pair`, and the input and output
digests pruned. -/
theorem receiptClaim_decode_concat (inputd : Digest) (sp sq : SystemState)
    (sys user : Nat) (outd : Digest)
    (hin : inputd.wf) (hsp : sp.wf) (hsq : sq.wf) (hout : outd.wf) :
    ReceiptClaim.decode (write_sha_halfs inputd ++ SystemState.encode sp ++
        SystemState.encode sq ++ [sys, user] ++ write_sha_halfs outd) =
      (match ExitCode.from_pair sys user with
       | none => .error .InvalidExitCode
       | some ec => .ok ({ pre := .Value sp
                           post := .Value sq
                           exit_code := ec
                           input := .Pruned inputd
                           output := .Pruned outd }, [])) := by
  have h4 := read_sha_halfs_of_write outd [] hout
  rw [List.append_nil] at h4
  have h1 := read_sha_halfs_of_write inputd
    (SystemState.encode sp ++ (SystemState.encode sq ++ sys :: user :: write_sha_halfs outd))
    hin
  have h2 := systemState_decode_encode sp
    (SystemState.encode sq ++ sys :: user :: write_sha_halfs outd) hsp
  have h3 := systemState_decode_encode sq (sys :: user :: write_sha_halfs outd) hsq
  simp only [List.append_assoc, List.cons_append, List.nil_append, ReceiptClaim.decode,
    h1, h2, h3]
  cases hfp : ExitCode.from_pair sys user with
  | none => simp [hfp]
  | some ec => simp [hfp, h4]

/-- Claim C8, counterexample: a claim with exit code `SessionLimit` (and
unpruned pre and post) encodes successfully, but decoding the encoding
does not return the same claim with input and output pruned: the exit
code comes back as `SystemSplit`, because `into_pair` sends
`SessionLimit` to `(2, 2)` and `from_pair` sends sys code 2 to
`SystemSplit`. -/
theorem C8_counterexample :
    ReceiptClaim.encode S0 claimSL = .ok flatSL ∧
    ReceiptClaim.decode flatSL ≠ .ok
      ({ claimSL with input := .Pruned claimSL.inputDigest
                      output := .Pruned (claimSL.outputDigest S0) }, []) ∧
    (ReceiptClaim.decode flatSL).map (fun p => p.fst.exit_code) = .ok .SystemSplit := by
  refine ⟨by decide, by decide, by decide⟩

/-- Claim C8, amended: for every claim whose pre and post are unpruned
values (and wellformed 32-bit data), `encode` succeeds and writes
exactly the input digest as sha halves, the encoded pre and post states,
the exit code pair, and the output digest as sha halves; decoding that
flat encoding succeeds and returns the same claim with input and output
pruned to their digests — except that exit code `SessionLimit` decodes
as `SystemSplit`. Whenever the exit code is not `SessionLimit`, the
round-tripped claim has the digest of the original. `encode` returns
`PrunedValueError` when pre or post is pruned. -/
theorem C8_encode_decode_roundtrip (S : Sha) :
    (∀ (c : ReceiptClaim) (sp sq : SystemState),
      c.pre = .Value sp → c.post = .Value sq → sp.wf → sq.wf →
      c.inputDigest.wf → (c.outputDigest S).wf →
      ReceiptClaim.encode S c = .ok
        (write_sha_halfs c.inputDigest ++ SystemState.encode sp ++
         SystemState.encode sq ++
         [c.exit_code.into_pair.fst, c.exit_code.into_pair.snd] ++
         write_sha_halfs (c.outputDigest S)) ∧
      ReceiptClaim.decode
        (write_sha_halfs c.inputDigest ++ SystemState.encode sp ++
         SystemState.encode sq ++
         [c.exit_code.into_pair.fst, c.exit_code.into_pair.snd] ++
         write_sha_halfs (c.outputDigest S)) = .ok
        ({ pre := .Value sp, post := .Value sq,
           exit_code := if c.exit_code = .SessionLimit then .SystemSplit else c.exit_code,
           input := .Pruned c.inputDigest,
           output := .Pruned (c.outputDigest S) }, []) ∧
      (c.exit_code ≠ .SessionLimit →
        ReceiptClaim.digest S
          { pre := .Value sp, post := .Value sq,
            exit_code := if c.exit_code = .SessionLimit then .SystemSplit else c.exit_code,
            input := .Pruned c.inputDigest,
            output := .Pruned (c.outputDigest S) } =
          ReceiptClaim.digest S c)) ∧
    (∀ (c : ReceiptClaim) (d : Digest), c.pre = .Pruned d →
      ReceiptClaim.encode S c = .error ⟨d⟩) ∧
    (∀ (c : ReceiptClaim) (sp : SystemState) (d : Digest),
      c.pre = .Value sp → c.post = .Pruned d →
      ReceiptClaim.encode S c = .error ⟨d⟩) := by
  refine ⟨?_, ?_, ?_⟩
  · intro c sp sq hpre hpost hsp hsq hin hout
    refine ⟨by simp [ReceiptClaim.encode, hpre, hpost], ?_, ?_⟩
    · rw [receiptClaim_decode_concat c.inputDigest sp sq _ _ _ hin hsp hsq hout]
      cases hec : c.exit_code <;>
        simp [hec, ExitCode.into_pair, ExitCode.from_pair]
    · intro hne
      simp [ReceiptClaim.digest, ReceiptClaim.inputDigest, ReceiptClaim.outputDigest,
        hpre, hpost, hne, MaybePruned.digest]
  · intro c d hpre
    simp [ReceiptClaim.encode, hpre]
  · intro c sp d hpre hpost
    simp [ReceiptClaim.encode, hpre, hpost]

/-- Witness for the amended claim C8 at a concrete `Halted` claim. -/
theorem C8_encode_decode_roundtrip_witness :
    ReceiptClaim.encode S0 claimH = .ok
      (write_sha_halfs claimH.inputDigest ++
       SystemState.encode { pc := 1, merkle_root := Digest.ZERO } ++
       SystemState.encode { pc := 0, merkle_root := Digest.ZERO } ++
       [claimH.exit_code.into_pair.fst, claimH.exit_code.into_pair.snd] ++
       write_sha_halfs (claimH.outputDigest S0)) :=
  ((C8_encode_decode_roundtrip S0).1 claimH
    { pc := 1, merkle_root := Digest.ZERO } { pc := 0, merkle_root := Digest.ZERO }
    rfl rfl (by decide) (by decide) (by decide) (by decide)).1

end R0V
